import Mathlib

/-!
Verification of the recipe-sharing backend's core logic (validation, recipe
mutation, shopping-list aggregation, favorites, derived fields) against its
natural-language specification.

The embedding follows `recipes/models.py`, `recipes/serializers.py` and
`recipes/views.py`:
  * machine decimals (`DecimalField`, exact decimal arithmetic) are modelled
    as `ℚ`; Python's `float(amount) < 0.1` comparison is exact for two-decimal
    amounts, so it is modelled as the exact comparison on `ℚ`;
  * database rows are lists of records; a `Recipe` carries its
    `RecipeIngredient` rows, `Favorite` rows are `(user id, recipe id)` pairs;
  * Python's insertion-ordered `dict` used by the shopping-list aggregation is
    an association list updated in place / appended to, exactly as the
    `if key in ingredients` branch of `ShoppingListSerializer.create` does;
  * `None`-able request fields (`validated_data.get(...)`) are `Option`s, and
    Python truthiness of lists/strings (`if recipe_ids:`, `if favorited:`)
    is emptiness of the underlying value.
-/

/-- `recipes.models.Ingredient`: name + unit (unique together). -/
structure Ingredient where
  id : Nat
  name : String
  unit : String
deriving DecidableEq, Repr

/-- `recipes.models.RecipeIngredient`: join of a recipe with an ingredient
(kept by foreign key, as in the database schema) and a decimal amount. -/
structure RecipeIngredient where
  ingredient_id : Nat
  amount : ℚ
deriving DecidableEq, Repr

/-- `recipes.models.Recipe` with its owned `RecipeIngredient` rows
(`related_name='recipe_ingredients'`) and its tag associations. -/
structure Recipe where
  id : Nat
  author : Nat
  title : String
  description : String
  steps : List String
  time_minutes : Nat
  tags : List Nat
  recipe_ingredients : List RecipeIngredient
deriving DecidableEq, Repr

/-- The relational store the serializers and views read:
the `Ingredient` table, the `Recipe` table (each recipe with its rows) and
the `Favorite` table as `(user id, recipe id)` pairs
(`unique_together ('user', 'recipe')`). -/
structure Store where
  ingredients : List Ingredient
  recipes : List Recipe
  favorites : List (Nat × Nat)
deriving DecidableEq, Repr

/-- One entry of the `ingredients_data` write-field
(`IngredientInputSerializer`): an ingredient id and a decimal amount. -/
structure IngredientInput where
  ingredient : Nat
  amount : ℚ
deriving DecidableEq, Repr

/-- A recipe create/update payload as the serializer's `validated_data`:
each field is `none` when absent from the request. -/
structure UpdatePayload where
  title : Option String
  description : Option String
  steps : Option (List String)
  time_minutes : Option Nat
  tags : Option (List Nat)
  ingredients_data : Option (List IngredientInput)
deriving DecidableEq, Repr

/-- The specific reasons `RecipeDetailSerializer.validate` raises
`ValidationError` with (in the spec's names). -/
inductive ValidationFailure where
  | missingTags
  | missingIngredients
  | duplicateIngredient
  | invalidAmount
  | unknownIngredient (id : Nat)
deriving DecidableEq, Repr

/-- The per-entry loop at the end of `RecipeDetailSerializer.validate`
(serializers.py lines 136-145): for each entry, in list order, first
`if not amount or float(amount) < 0.1` then the storage-existence check. -/
def checkIngredientEntries (ingredientTable : List Ingredient) :
    List IngredientInput → Except ValidationFailure Unit
  | [] => .ok ()
  | e :: rest =>
    if e.amount = 0 ∨ e.amount < (1/10 : ℚ) then .error .invalidAmount
    else if !(ingredientTable.any (fun i => i.id == e.ingredient)) then
      .error (.unknownIngredient e.ingredient)
    else checkIngredientEntries ingredientTable rest

/-- `RecipeDetailSerializer.validate` (serializers.py lines 121-147):
tags non-empty, ingredient list non-empty, no duplicate ingredient ids
(`len(ids) != len(set(ids))`), then the per-entry amount/existence loop. -/
def RecipeDetailSerializer.validate (ingredientTable : List Ingredient)
    (data : UpdatePayload) : Except ValidationFailure UpdatePayload :=
  let tags := data.tags.getD []
  if tags.isEmpty then .error .missingTags
  else
    let ingredients_data := data.ingredients_data.getD []
    if ingredients_data.isEmpty then .error .missingIngredients
    else
      let ingredient_ids := ingredients_data.map (fun i => i.ingredient)
      if ingredient_ids.length ≠ ingredient_ids.dedup.length then
        .error .duplicateIngredient
      else
        match checkIngredientEntries ingredientTable ingredients_data with
        | .error e => .error e
        | .ok () => .ok data

/-- `RecipeDetailSerializer.update` (serializers.py lines 166-188):
scalar fields fall back to the instance's value when absent
(`validated_data.get('title', instance.title)` et al.); a supplied tag set
replaces the associations (`instance.tags.set(tags)`); a supplied ingredient
list first deletes every existing row
(`instance.recipe_ingredients.all().delete()`) and then creates one row per
payload entry. -/
def RecipeDetailSerializer.update (inst : Recipe) (validated_data : UpdatePayload) :
    Recipe :=
  let r := { inst with
    title := validated_data.title.getD inst.title
    description := validated_data.description.getD inst.description
    steps := validated_data.steps.getD inst.steps
    time_minutes := validated_data.time_minutes.getD inst.time_minutes }
  let r := match validated_data.tags with
    | some tags => { r with tags := tags }
    | none => r
  match validated_data.ingredients_data with
  | some ings =>
    { r with recipe_ingredients :=
        ings.map (fun e => { ingredient_id := e.ingredient, amount := e.amount }) }
  | none => r

/-- The framework's update flow as the view drives it
(`serializer.is_valid()` runs `validate`, then `serializer.save()` runs
`update`): validation failure leaves the stored recipe untouched. -/
def performUpdate (ingredientTable : List Ingredient) (inst : Recipe)
    (payload : UpdatePayload) : Except ValidationFailure Recipe :=
  match RecipeDetailSerializer.validate ingredientTable payload with
  | .error e => .error e
  | .ok d => .ok (RecipeDetailSerializer.update inst d)

/-- `RecipeDetailSerializer.get_avg_rating` (serializers.py lines 106-110):
`sum(r.value for r in ratings) / len(ratings)` when `ratings` is non-empty,
`None` otherwise. Python's true division is modelled exactly on `ℚ`. -/
def RecipeDetailSerializer.get_avg_rating (ratings : List Nat) : Option ℚ :=
  if !ratings.isEmpty then
    some ((ratings.map (fun v => (v : ℚ))).sum / (ratings.length : ℚ))
  else none

/-- Outcomes of the favorite/unfavorite action (views.py lines 84-104):
`alreadyFavorited` is the 400 "Already in favorites" response (the spec's
`Conflict`/`AlreadyFavorited`), `notFound` the `get_object_or_404` 404. -/
inductive FavoriteError where
  | alreadyFavorited
  | notFound
deriving DecidableEq, Repr

/-- `RecipeViewSet.favorite` (views.py lines 84-96): returns the `Favorite`
table after the call together with the error, if any; the duplicate case
returns before `Favorite.objects.create` runs, so the table is unchanged. -/
def RecipeViewSet.favorite (favorites : List (Nat × Nat)) (user recipe : Nat) :
    List (Nat × Nat) × Option FavoriteError :=
  if favorites.contains (user, recipe) then (favorites, some .alreadyFavorited)
  else (favorites ++ [(user, recipe)], none)

/-- `RecipeViewSet.unfavorite` (views.py lines 98-104): `get_object_or_404`
then delete; absent row leaves the table unchanged and yields `notFound`. -/
def RecipeViewSet.unfavorite (favorites : List (Nat × Nat)) (user recipe : Nat) :
    List (Nat × Nat) × Option FavoriteError :=
  if favorites.contains (user, recipe) then
    (favorites.filter (fun p => !(p == (user, recipe))), none)
  else (favorites, some .notFound)

/-- A shopping-list grouping key: (ingredient name, ingredient unit). -/
abbrev SLKey := String × String

/-- The key `ShoppingListSerializer.create` groups by (serializers.py line
217): `(recipe_ing.ingredient.name, recipe_ing.ingredient.unit)`, resolved
through the row's foreign key. The `none` branch is unreachable in the
database, whose foreign-key integrity guarantees the ingredient row exists. -/
def keyOf (ingredientTable : List Ingredient) (ri : RecipeIngredient) : SLKey :=
  match ingredientTable.find? (fun i => i.id == ri.ingredient_id) with
  | some i => (i.name, i.unit)
  | none => ("", "")

/-- One step of the aggregation dict update (serializers.py lines 218-221):
`if key in ingredients: ingredients[key] += amount else: ingredients[key] =
amount`, on an insertion-ordered association list. -/
def addAmount (acc : List (SLKey × ℚ)) (key : SLKey) (amt : ℚ) :
    List (SLKey × ℚ) :=
  if acc.any (fun p => p.1 == key) then
    acc.map (fun p => if p.1 == key then (p.1, p.2 + amt) else p)
  else
    acc ++ [(key, amt)]

/-- The inner loop of the aggregation: fold `addAmount` over one recipe's
`RecipeIngredient` rows. -/
def aggregateRows (ingredientTable : List Ingredient)
    (rows : List RecipeIngredient) (acc : List (SLKey × ℚ)) :
    List (SLKey × ℚ) :=
  rows.foldl (fun a ri => addAmount a (keyOf ingredientTable ri) ri.amount) acc

/-- The aggregation loop of `ShoppingListSerializer.create` (serializers.py
lines 214-223) over a list of selected recipes. -/
def shoppingAggregate (ingredientTable : List Ingredient)
    (recipes : List Recipe) : List (SLKey × ℚ) :=
  recipes.foldl (fun acc r => aggregateRows ingredientTable r.recipe_ingredients acc) []

/-- Failure of the shopping-list endpoint: the caller is not authenticated
(the view's `IsAuthenticated` permission and the serializer's own
`request.user.is_authenticated` check, serializers.py lines 203-205). -/
inductive ShoppingListError where
  | unauthenticated
deriving DecidableEq, Repr

/-- `ShoppingListSerializer.create` (serializers.py lines 202-223): reject an
unauthenticated caller; select `Recipe.objects.filter(id__in=recipe_ids)`
when `recipe_ids` is truthy (present and non-empty), else the requesting
user's favorited recipes; aggregate the selection. -/
def ShoppingListSerializer.create (store : Store) (user : Option Nat)
    (recipe_ids : Option (List Nat)) :
    Except ShoppingListError (List (SLKey × ℚ)) :=
  match user with
  | none => .error .unauthenticated
  | some u =>
    let ids := recipe_ids.getD []
    let recipes :=
      if !ids.isEmpty then store.recipes.filter (fun r => ids.contains r.id)
      else store.recipes.filter (fun r => store.favorites.contains (u, r.id))
    .ok (shoppingAggregate store.ingredients recipes)

/-- The author filter of `RecipeViewSet.get_queryset` (views.py lines 62-65);
`none` stands for an absent or falsy `author` query parameter. -/
def applyAuthorFilter (recipes : List Recipe) (author_param : Option Nat) :
    List Recipe :=
  match author_param with
  | some a => recipes.filter (fun r => r.author == a)
  | none => recipes

/-- `RecipeViewSet.get_queryset` (views.py lines 57-72) restricted to its
filtering: the author filter, then `if favorited and
self.request.user.is_authenticated:` — any non-empty `favorited` string is
truthy — restricting to recipes the requester favorited. -/
def RecipeViewSet.get_queryset (recipes : List Recipe)
    (favorites : List (Nat × Nat)) (user : Option Nat)
    (author_param : Option Nat) (favorited_param : Option String) :
    List Recipe :=
  let queryset := applyAuthorFilter recipes author_param
  match favorited_param, user with
  | some s, some u =>
    if s = "" then queryset
    else queryset.filter (fun r => favorites.contains (u, r.id))
  | _, _ => queryset

/-- Every `RecipeIngredient` row of a list of recipes, in iteration order. -/
def allRows (recipes : List Recipe) : List RecipeIngredient :=
  recipes.flatMap (fun r => r.recipe_ingredients)

/-- The total amount an aggregation result holds for a key
(`0` when the key is absent). -/
def lookupAmount (acc : List (SLKey × ℚ)) (key : SLKey) : ℚ :=
  match acc.find? (fun p => p.1 == key) with
  | some p => p.2
  | none => 0

/-- The exact sum of the amounts of all rows grouped under `key`. -/
def keySum (ingredientTable : List Ingredient)
    (rows : List RecipeIngredient) (key : SLKey) : ℚ :=
  ((rows.filter (fun ri => keyOf ingredientTable ri == key)).map
    (fun ri => ri.amount)).sum

/-- An ingredient-entry satisfies validation rules 4 and 5: truthy amount of
at least 0.1, and the referenced ingredient id exists in storage. -/
def entryOk (ingredientTable : List Ingredient) (e : IngredientInput) : Prop :=
  ¬(e.amount = 0 ∨ e.amount < (1/10 : ℚ)) ∧
    ingredientTable.any (fun i => i.id == e.ingredient) = true

instance (ingredientTable : List Ingredient) (e : IngredientInput) :
    Decidable (entryOk ingredientTable e) := by
  unfold entryOk; infer_instance

/-! Concrete fixtures for the closed parts of the claims. -/

/-- Ingredient table of the spec's shopping-list example, with two distinct
flour records sharing (name, unit) to exhibit the merge-by-(name, unit). -/
def exampleIngredients : List Ingredient :=
  [⟨1, "flour", "g"⟩, ⟨2, "sugar", "g"⟩, ⟨3, "egg", "pcs"⟩, ⟨4, "flour", "g"⟩]

/-- Recipe R1 of the spec's example: flour 200 g, sugar 50 g. -/
def exampleR1 : Recipe :=
  { id := 1, author := 1, title := "R1", description := "", steps := [],
    time_minutes := 10, tags := [1],
    recipe_ingredients := [⟨1, 200⟩, ⟨2, 50⟩] }

/-- Recipe R2 of the spec's example: flour 300 g (a different flour record),
egg 2 pcs. -/
def exampleR2 : Recipe :=
  { id := 2, author := 1, title := "R2", description := "", steps := [],
    time_minutes := 10, tags := [1],
    recipe_ingredients := [⟨4, 300⟩, ⟨3, 2⟩] }

/-- A stored recipe used for the update claims. -/
def exampleRecipe : Recipe :=
  { id := 7, author := 1, title := "old title", description := "old desc",
    steps := ["step"], time_minutes := 30, tags := [1],
    recipe_ingredients := [⟨1, 200⟩] }

/-- A partial-update payload supplying only the title. -/
def titleOnlyPayload : UpdatePayload :=
  { title := some "new title", description := none, steps := none,
    time_minutes := none, tags := none, ingredients_data := none }

/-- A one-ingredient table for the validation fixtures. -/
def saltTable : List Ingredient := [⟨1, "salt", "g"⟩]

/-- A payload whose first entry references an unknown ingredient (rule 5)
and whose second entry has an amount below 0.1 (rule 4). -/
def bothRulesPayload : UpdatePayload :=
  { title := some "t", description := none, steps := none,
    time_minutes := none, tags := some [1],
    ingredients_data := some [⟨2, 1⟩, ⟨1, 1/100⟩] }

/-- An update payload supplying a fresh ingredient list. -/
def replacePayload : UpdatePayload :=
  { title := none, description := none, steps := none,
    time_minutes := none, tags := none,
    ingredients_data := some [⟨1, 3⟩, ⟨2, 1/2⟩] }

/-- The store of the spec's shopping-list example. -/
def exampleStore : Store :=
  { ingredients := exampleIngredients, recipes := [exampleR1, exampleR2],
    favorites := [(1, 1)] }

/-! Theorems. General lemmas come first, then one theorem per claim. -/

theorem contains_iff_mem {α : Type} [BEq α] [LawfulBEq α] (l : List α) (a : α) :
    l.contains a = true ↔ a ∈ l :=
  List.elem_iff

theorem contains_eq_true_of_mem {α : Type} [BEq α] [LawfulBEq α] {l : List α}
    {a : α} (h : a ∈ l) : l.contains a = true :=
  (contains_iff_mem l a).2 h

theorem contains_eq_false_of_not_mem {α : Type} [BEq α] [LawfulBEq α]
    {l : List α} {a : α} (h : a ∉ l) : l.contains a = false := by
  rw [← Bool.not_eq_true]
  exact fun hc => h ((contains_iff_mem l a).1 hc)

theorem contains_dedup (l : List Nat) (a : Nat) : l.dedup.contains a = l.contains a := by
  by_cases h : a ∈ l
  · rw [(contains_iff_mem l a).2 h, (contains_iff_mem l.dedup a).2 (List.mem_dedup.2 h)]
  · have h1 : l.contains a = false := by
      rw [← Bool.not_eq_true]; exact fun hc => h ((contains_iff_mem l a).1 hc)
    have h2 : l.dedup.contains a = false := by
      rw [← Bool.not_eq_true]
      exact fun hc => h (List.mem_dedup.1 ((contains_iff_mem l.dedup a).1 hc))
    rw [h1, h2]

/-- C2: for every existing recipe and every update payload supplying an
ingredient list, the recipe's rows after the update are exactly one row per
payload entry with the payload's amounts; no prior row survives unless
re-supplied. -/
theorem C2_ingredient_full_replacement (inst : Recipe) (p : UpdatePayload)
    (l : List IngredientInput) (h : p.ingredients_data = some l) :
    (RecipeDetailSerializer.update inst p).recipe_ingredients =
      l.map (fun e => { ingredient_id := e.ingredient, amount := e.amount }) := by
  unfold RecipeDetailSerializer.update
  cases htags : p.tags <;> simp [h, htags]

theorem C2_witness :
    (RecipeDetailSerializer.update exampleRecipe replacePayload).recipe_ingredients =
      ([⟨1, 3⟩, ⟨2, 1/2⟩] : List IngredientInput).map
        (fun e => { ingredient_id := e.ingredient, amount := e.amount }) :=
  C2_ingredient_full_replacement exampleRecipe replacePayload [⟨1, 3⟩, ⟨2, 1/2⟩] rfl

/-- C3: the claim (a payload omitting the tag set and the ingredient list
succeeds and leaves them unchanged) is the code's own intent — the
`is not None` guards of `RecipeDetailSerializer.update` implement exactly
that — but `validate` unconditionally requires tags and ingredients, so the
update pipeline rejects a title-only payload with `MissingTags` and the
partial-update branches of `update` are unreachable through it. -/
theorem C3_title_only_update_rejected :
    performUpdate saltTable exampleRecipe titleOnlyPayload = .error .missingTags ∧
    RecipeDetailSerializer.update exampleRecipe titleOnlyPayload =
      { exampleRecipe with title := "new title" } :=
  ⟨rfl, rfl⟩

/-- C5: the derived average-rating field is the exact arithmetic mean of the
recipe's rating values when at least one rating exists (ratings [3, 5] give
4), and is absent (`none`, never zero) when no ratings exist. -/
theorem C5_avg_rating (ratings : List Nat) :
    (ratings ≠ [] → RecipeDetailSerializer.get_avg_rating ratings =
      some ((ratings.map (fun v => (v : ℚ))).sum / (ratings.length : ℚ))) ∧
    RecipeDetailSerializer.get_avg_rating [3, 5] = some 4 ∧
    RecipeDetailSerializer.get_avg_rating [] = none := by
  refine ⟨?_, by norm_num [RecipeDetailSerializer.get_avg_rating], rfl⟩
  intro h
  simp [RecipeDetailSerializer.get_avg_rating, h]

/-- C6: favoriting an already-favorited recipe fails with
`AlreadyFavorited` and leaves the `Favorite` table unchanged; favoriting a
not-yet-favorited recipe succeeds, appending exactly one `(user, recipe)`
row; un-favoriting a never-favorited recipe fails with `NotFound`. -/
theorem C6_favorite_toggle (favorites : List (Nat × Nat)) (user recipe : Nat) :
    (favorites.contains (user, recipe) = true →
      RecipeViewSet.favorite favorites user recipe =
        (favorites, some .alreadyFavorited)) ∧
    (favorites.contains (user, recipe) = false →
      RecipeViewSet.favorite favorites user recipe =
        (favorites ++ [(user, recipe)], none) ∧
      ((RecipeViewSet.favorite favorites user recipe).1).count (user, recipe) = 1) ∧
    (favorites.contains (user, recipe) = false →
      RecipeViewSet.unfavorite favorites user recipe =
        (favorites, some .notFound)) := by
  refine ⟨fun h => ?_, fun h => ?_, fun h => ?_⟩
  · have h' : (user, recipe) ∈ favorites := (contains_iff_mem _ _).1 h
    simp [RecipeViewSet.favorite, h']
  · have h' : (user, recipe) ∉ favorites := by
      intro hm
      have hc := contains_eq_true_of_mem hm
      rw [h] at hc
      exact Bool.false_ne_true hc
    refine ⟨by simp [RecipeViewSet.favorite, h'], ?_⟩
    simp [RecipeViewSet.favorite, h', List.count_append, List.count_eq_zero.2 h']
  · have h' : (user, recipe) ∉ favorites := by
      intro hm
      have hc := contains_eq_true_of_mem hm
      rw [h] at hc
      exact Bool.false_ne_true hc
    simp [RecipeViewSet.unfavorite, h']

/-- C7: a shopping-list request with the recipe-identifier list absent or
empty aggregates over exactly the recipes favorited by the requesting user,
and every request by an unauthenticated caller fails with `Unauthenticated`. -/
theorem C7_shopping_list_default_and_auth (store : Store) (u : Nat)
    (ids : Option (List Nat)) :
    ShoppingListSerializer.create store (some u) none =
      .ok (shoppingAggregate store.ingredients
        (store.recipes.filter (fun r => store.favorites.contains (u, r.id)))) ∧
    ShoppingListSerializer.create store (some u) (some []) =
      .ok (shoppingAggregate store.ingredients
        (store.recipes.filter (fun r => store.favorites.contains (u, r.id)))) ∧
    ShoppingListSerializer.create store none ids = .error .unauthenticated :=
  ⟨rfl, rfl, rfl⟩

/-- C10: the `favorited` query filter ignores the parameter's value — for an
authenticated requester every non-empty value (including "false" and "0")
restricts the listing to the requester's favorited recipes, and for an
unauthenticated requester the parameter has no effect. -/
theorem C10_favorited_filter_ignores_value (recipes : List Recipe)
    (favorites : List (Nat × Nat)) (author_param : Option Nat) :
    (∀ (u : Nat) (s : String), s ≠ "" →
      RecipeViewSet.get_queryset recipes favorites (some u) author_param (some s) =
        (applyAuthorFilter recipes author_param).filter
          (fun r => favorites.contains (u, r.id))) ∧
    (∀ s : Option String,
      RecipeViewSet.get_queryset recipes favorites none author_param s =
        applyAuthorFilter recipes author_param) := by
  constructor
  · intro u s hs
    simp [RecipeViewSet.get_queryset, hs]
  · intro s
    cases s <;> rfl

/-- C8: the shopping-list output is invariant under duplication of recipe
identifiers — the selection `Recipe.objects.filter(id__in=recipe_ids)` keeps
each stored recipe once, so the result equals that of the deduplicated
list. -/
theorem C8_duplicate_recipe_ids_merge (store : Store) (user : Option Nat)
    (ids : List Nat) :
    ShoppingListSerializer.create store user (some ids) =
      ShoppingListSerializer.create store user (some ids.dedup) := by
  unfold ShoppingListSerializer.create
  cases user with
  | none => rfl
  | some u =>
    have hempty : ids.dedup.isEmpty = ids.isEmpty := by
      cases h : ids.isEmpty
      · rw [List.isEmpty_eq_false] at h ⊢
        exact fun hd => h ((List.dedup_eq_nil ids).1 hd)
      · rw [List.isEmpty_iff] at h ⊢
        simp [h]
    have hfilter : store.recipes.filter (fun r => ids.contains r.id) =
        store.recipes.filter (fun r => ids.dedup.contains r.id) := by
      exact List.filter_congr (fun r _ => (contains_dedup ids r.id).symm)
    simp only [Option.getD_some, hempty, hfilter]

/-- C9: a non-empty recipe-identifier list containing identifiers matching no
stored recipe never errors — the selection equals the one over the subset of
identifiers that exist in storage, and when none exist the result is the
empty mapping. -/
theorem C9_nonexistent_ids_ignored (store : Store) (u : Nat) (ids : List Nat)
    (hne : ids ≠ []) :
    ShoppingListSerializer.create store (some u) (some ids) =
      .ok (shoppingAggregate store.ingredients
        (store.recipes.filter (fun r =>
          (ids.filter (fun i => store.recipes.any (fun r2 => r2.id == i))).contains
            r.id))) ∧
    ((∀ i ∈ ids, ¬ ∃ r ∈ store.recipes, r.id = i) →
      ShoppingListSerializer.create store (some u) (some ids) = .ok []) := by
  have hids : ids.isEmpty = false := List.isEmpty_eq_false.2 hne
  constructor
  · unfold ShoppingListSerializer.create
    simp only [Option.getD_some, hids, Bool.not_false, if_pos]
    have hfilter : store.recipes.filter (fun r => ids.contains r.id) =
        store.recipes.filter (fun r =>
          (ids.filter (fun i => store.recipes.any (fun r2 => r2.id == i))).contains
            r.id) := by
      refine List.filter_congr (fun r hr => ?_)
      by_cases hm : r.id ∈ ids
      · have hkeep : r.id ∈ ids.filter
            (fun i => store.recipes.any (fun r2 => r2.id == i)) := by
          rw [List.mem_filter]
          exact ⟨hm, List.any_eq_true.2 ⟨r, hr, by simp⟩⟩
        rw [contains_eq_true_of_mem hm, contains_eq_true_of_mem hkeep]
      · have h2 : r.id ∉ ids.filter
            (fun i => store.recipes.any (fun r2 => r2.id == i)) :=
          fun hc => hm (List.mem_filter.1 hc).1
        rw [contains_eq_false_of_not_mem hm, contains_eq_false_of_not_mem h2]
    rw [hfilter]
  · intro hnone
    unfold ShoppingListSerializer.create
    simp only [Option.getD_some, hids, Bool.not_false, if_pos]
    have hnil : store.recipes.filter (fun r => ids.contains r.id) = [] := by
      rw [List.filter_eq_nil_iff]
      intro r hr hc
      exact hnone r.id ((contains_iff_mem ids r.id).1 hc) ⟨r, hr, rfl⟩
    rw [hnil]
    rfl

theorem C9_witness :
    ShoppingListSerializer.create exampleStore (some 1) (some [99]) = .ok [] :=
  (C9_nonexistent_ids_ignored exampleStore 1 [99] (by simp)).2 (by decide)

theorem checkIngredientEntries_ok (tbl : List Ingredient) :
    ∀ l : List IngredientInput, (∀ x ∈ l, entryOk tbl x) →
      checkIngredientEntries tbl l = .ok () := by
  intro l
  induction l with
  | nil => intro _; rfl
  | cons e rest ih =>
    intro h
    have he := h e (by simp)
    unfold checkIngredientEntries
    rw [if_neg he.1]
    rw [he.2]
    simp only [Bool.not_true, Bool.false_eq_true, if_false]
    exact ih (fun x hx => h x (by simp [hx]))

theorem checkIngredientEntries_err (tbl : List Ingredient) :
    ∀ (pre : List IngredientInput) (e : IngredientInput)
      (post : List IngredientInput),
      (∀ x ∈ pre, entryOk tbl x) → ¬ entryOk tbl e →
      checkIngredientEntries tbl (pre ++ e :: post) =
        .error (if e.amount = 0 ∨ e.amount < (1/10 : ℚ) then .invalidAmount
                else .unknownIngredient e.ingredient) := by
  intro pre
  induction pre with
  | nil =>
    intro e post _ hbad
    by_cases ha : e.amount = 0 ∨ e.amount < (1/10 : ℚ)
    · show checkIngredientEntries tbl (e :: post) = _
      unfold checkIngredientEntries
      rw [if_pos ha, if_pos ha]
    · have hex : tbl.any (fun i => i.id == e.ingredient) = false := by
        rw [← Bool.not_eq_true]
        exact fun h => hbad ⟨ha, h⟩
      show checkIngredientEntries tbl (e :: post) = _
      unfold checkIngredientEntries
      rw [if_neg ha, if_neg ha, hex]
      simp only [Bool.not_false, if_true]
  | cons p rest ih =>
    intro e post hpre hbad
    have hp := hpre p (by simp)
    show checkIngredientEntries tbl (p :: (rest ++ e :: post)) = _
    unfold checkIngredientEntries
    rw [if_neg hp.1, hp.2]
    simp only [Bool.not_true, Bool.false_eq_true, if_false]
    exact ih e post (fun x hx => hpre x (by simp [hx])) hbad

theorem length_ne_dedup_iff (l : List Nat) :
    l.length ≠ l.dedup.length ↔ ¬ l.Nodup := by
  constructor
  · intro h hn
    exact h (by rw [List.dedup_eq_self.2 hn])
  · intro h hlen
    refine h ?_
    have hsub := List.dedup_sublist l
    have heq := hsub.eq_of_length hlen.symm
    rw [← heq]
    exact List.nodup_dedup l

/-- C4 (amended): rules 1-3 (non-empty tags, non-empty ingredient list, no
duplicate ingredient ids) are checked in this order, fail-fast; rules 4 and 5
are then checked entry by entry in list order — amount before existence
within each entry — and the first violation found in that traversal is
reported.  A single entry violating both rules reports `InvalidAmount`, but
an earlier entry's `UnknownIngredient` precedes a later entry's
`InvalidAmount`.  A payload violating no rule validates successfully. -/
theorem C4_validation_order_amended (tbl : List Ingredient) (p : UpdatePayload) :
    (p.tags.getD [] = [] →
      RecipeDetailSerializer.validate tbl p = .error .missingTags) ∧
    (p.tags.getD [] ≠ [] → p.ingredients_data.getD [] = [] →
      RecipeDetailSerializer.validate tbl p = .error .missingIngredients) ∧
    (p.tags.getD [] ≠ [] → p.ingredients_data.getD [] ≠ [] →
      ¬ ((p.ingredients_data.getD []).map (fun i => i.ingredient)).Nodup →
      RecipeDetailSerializer.validate tbl p = .error .duplicateIngredient) ∧
    (p.tags.getD [] ≠ [] → p.ingredients_data.getD [] ≠ [] →
      ((p.ingredients_data.getD []).map (fun i => i.ingredient)).Nodup →
      (∀ e ∈ p.ingredients_data.getD [], entryOk tbl e) →
      RecipeDetailSerializer.validate tbl p = .ok p) ∧
    (∀ (pre : List IngredientInput) (e : IngredientInput)
       (post : List IngredientInput),
      p.tags.getD [] ≠ [] →
      p.ingredients_data.getD [] = pre ++ e :: post →
      ((p.ingredients_data.getD []).map (fun i => i.ingredient)).Nodup →
      (∀ x ∈ pre, entryOk tbl x) → ¬ entryOk tbl e →
      RecipeDetailSerializer.validate tbl p =
        .error (if e.amount = 0 ∨ e.amount < (1/10 : ℚ) then .invalidAmount
                else .unknownIngredient e.ingredient)) := by
  refine ⟨?_, ?_, ?_, ?_, ?_⟩
  · intro ht
    unfold RecipeDetailSerializer.validate
    rw [if_pos (List.isEmpty_iff.2 ht)]
  · intro ht hi
    unfold RecipeDetailSerializer.validate
    rw [if_neg (by rw [List.isEmpty_iff]; exact ht),
      if_pos (List.isEmpty_iff.2 hi)]
  · intro ht hi hdup
    unfold RecipeDetailSerializer.validate
    rw [if_neg (by rw [List.isEmpty_iff]; exact ht),
      if_neg (by rw [List.isEmpty_iff]; exact hi),
      if_pos ((length_ne_dedup_iff _).2 hdup)]
  · intro ht hi hdup hok
    unfold RecipeDetailSerializer.validate
    rw [if_neg (by rw [List.isEmpty_iff]; exact ht),
      if_neg (by rw [List.isEmpty_iff]; exact hi),
      if_neg (fun hlen => (length_ne_dedup_iff _).1 hlen hdup)]
    rw [checkIngredientEntries_ok tbl _ hok]
  · intro pre e post ht hsplit hdup hpre hbad
    unfold RecipeDetailSerializer.validate
    rw [if_neg (by rw [List.isEmpty_iff]; exact ht),
      if_neg (by rw [List.isEmpty_iff, hsplit]; simp),
      if_neg (fun hlen => (length_ne_dedup_iff _).1 hlen hdup)]
    rw [hsplit, checkIngredientEntries_err tbl pre e post hpre hbad]

/-- C4 as frozen is false: with the stored ingredient table `[salt (id 1)]`
and a payload whose entries are `[(id 2, amount 1), (id 1, amount 0.01)]`,
rule 4 is violated (by the second entry) and rule 5 is violated (by the
first), yet the reported failure is `UnknownIngredient 2`, not the claimed
`InvalidAmount`. -/
theorem C4_counterexample :
    RecipeDetailSerializer.validate saltTable bothRulesPayload =
      .error (.unknownIngredient 2) ∧
    (∃ e ∈ bothRulesPayload.ingredients_data.getD [],
      e.amount < (1/10 : ℚ)) ∧
    (∃ e ∈ bothRulesPayload.ingredients_data.getD [],
      ¬ ∃ i ∈ saltTable, i.id = e.ingredient) ∧
    ValidationFailure.unknownIngredient 2 ≠ .invalidAmount := by
  refine ⟨?_, ⟨⟨1, 1/100⟩, by norm_num [bothRulesPayload]⟩,
    ⟨⟨2, 1⟩, by norm_num [bothRulesPayload, saltTable]⟩, by decide⟩
  simp +decide [RecipeDetailSerializer.validate, checkIngredientEntries,
    saltTable, bothRulesPayload]
  rw [if_neg (by norm_num)]

theorem slAny_iff_mem (acc : List (SLKey × ℚ)) (key : SLKey) :
    (acc.any (fun p => p.1 == key)) = true ↔ key ∈ acc.map Prod.fst := by
  rw [List.any_eq_true]
  constructor
  · rintro ⟨p, hp, hpk⟩
    exact List.mem_map.2 ⟨p, hp, by simpa using hpk⟩
  · intro h
    obtain ⟨p, hp, hpk⟩ := List.mem_map.1 h
    exact ⟨p, hp, by simp [hpk]⟩

theorem addAmount_fst_comp (k : SLKey) (a : ℚ) :
    Prod.fst ∘ (fun p : SLKey × ℚ => if p.1 == k then (p.1, p.2 + a) else p) =
      Prod.fst := by
  funext p
  by_cases h : p.1 = k <;> simp [Function.comp, h]

theorem addAmount_keys (acc : List (SLKey × ℚ)) (k : SLKey) (a : ℚ) :
    (addAmount acc k a).map Prod.fst =
      if k ∈ acc.map Prod.fst then acc.map Prod.fst
      else acc.map Prod.fst ++ [k] := by
  unfold addAmount
  by_cases hm : k ∈ acc.map Prod.fst
  · rw [if_pos ((slAny_iff_mem acc k).2 hm), if_pos hm, List.map_map,
      addAmount_fst_comp]
  · have hfalse : (acc.any (fun p => p.1 == k)) = false := by
      rw [← Bool.not_eq_true]
      exact fun h => hm ((slAny_iff_mem acc k).1 h)
    rw [hfalse, if_neg hm]
    simp

theorem addAmount_mem_keys (acc : List (SLKey × ℚ)) (k : SLKey) (a : ℚ)
    (k' : SLKey) :
    k' ∈ (addAmount acc k a).map Prod.fst ↔
      k' ∈ acc.map Prod.fst ∨ k' = k := by
  rw [addAmount_keys]
  by_cases hm : k ∈ acc.map Prod.fst
  · rw [if_pos hm]
    constructor
    · exact Or.inl
    · rintro (h | rfl)
      · exact h
      · exact hm
  · rw [if_neg hm, List.mem_append]
    simp

theorem addAmount_nodup (acc : List (SLKey × ℚ)) (k : SLKey) (a : ℚ)
    (h : (acc.map Prod.fst).Nodup) : ((addAmount acc k a).map Prod.fst).Nodup := by
  rw [addAmount_keys]
  by_cases hm : k ∈ acc.map Prod.fst
  · rw [if_pos hm]; exact h
  · rw [if_neg hm]
    simp [List.nodup_append, h, hm]

theorem addAmount_lookup (acc : List (SLKey × ℚ)) (k : SLKey) (a : ℚ)
    (k' : SLKey) :
    lookupAmount (addAmount acc k a) k' =
      lookupAmount acc k' + (if k' = k then a else 0) := by
  unfold addAmount lookupAmount
  by_cases hany : (acc.any (fun p => p.1 == k)) = true
  · rw [hany]
    simp only [if_true]
    rw [List.find?_map]
    have hcomp : ((fun p : SLKey × ℚ => p.1 == k') ∘
        (fun p : SLKey × ℚ => if p.1 == k then (p.1, p.2 + a) else p)) =
          fun p : SLKey × ℚ => p.1 == k' := by
      funext p
      by_cases h : p.1 = k <;> simp [Function.comp, h]
    rw [hcomp]
    cases hf : acc.find? (fun p => p.1 == k') with
    | none =>
      simp only [Option.map_none]
      by_cases hk : k' = k
      · subst hk
        obtain ⟨p, hp, hpk⟩ := List.any_eq_true.1 hany
        exact absurd hpk (List.find?_eq_none.1 hf p hp)
      · simp [hk]
    | some e =>
      have he : e.1 = k' := by
        have := List.find?_some hf
        simpa using this
      simp only [Option.map_some]
      by_cases hk : k' = k
      · subst hk
        simp [he]
      · simp [he, hk]
  · have hfalse : (acc.any (fun p => p.1 == k)) = false := by
      rw [← Bool.not_eq_true]; exact hany
    rw [hfalse]
    simp only [Bool.false_eq_true, if_false]
    rw [List.find?_append]
    cases hf : acc.find? (fun p => p.1 == k') with
    | none =>
      simp only [Option.none_or]
      by_cases hk : k' = k
      · subst hk
        simp [List.find?_cons]
      · have hne : ((k, a).1 == k') = false := by
          rw [← Bool.not_eq_true]
          intro hc
          have hkk : k = k' := by simpa using hc
          exact hk hkk.symm
        simp [List.find?_cons, hne, hk]
    | some e =>
      have he : e.1 = k' := by
        have := List.find?_some hf
        simpa using this
      have hke : k' ≠ k := by
        rintro rfl
        have hmem := List.mem_of_find?_eq_some hf
        rw [← Bool.not_eq_true] at hfalse
        exact hfalse (List.any_eq_true.2 ⟨e, hmem, by simp [he]⟩)
      simp [hke]

theorem keySum_nil (tbl : List Ingredient) (k' : SLKey) :
    keySum tbl [] k' = 0 := rfl

theorem keySum_cons (tbl : List Ingredient) (ri : RecipeIngredient)
    (rest : List RecipeIngredient) (k' : SLKey) :
    keySum tbl (ri :: rest) k' =
      (if keyOf tbl ri = k' then ri.amount else 0) + keySum tbl rest k' := by
  unfold keySum
  by_cases hk : keyOf tbl ri = k' <;> simp [List.filter_cons, hk]

theorem aggregateRows_cons (tbl : List Ingredient) (ri : RecipeIngredient)
    (rest : List RecipeIngredient) (acc : List (SLKey × ℚ)) :
    aggregateRows tbl (ri :: rest) acc =
      aggregateRows tbl rest (addAmount acc (keyOf tbl ri) ri.amount) := rfl

theorem aggregateRows_lookup (tbl : List Ingredient)
    (rows : List RecipeIngredient) :
    ∀ (acc : List (SLKey × ℚ)) (k' : SLKey),
      lookupAmount (aggregateRows tbl rows acc) k' =
        lookupAmount acc k' + keySum tbl rows k' := by
  induction rows with
  | nil => intro acc k'; simp [aggregateRows, keySum_nil]
  | cons ri rest ih =>
    intro acc k'
    rw [aggregateRows_cons, ih, addAmount_lookup, keySum_cons]
    by_cases hk : k' = keyOf tbl ri
    · rw [if_pos hk, if_pos hk.symm]
      ring
    · rw [if_neg hk, if_neg (fun h => hk h.symm)]
      ring

theorem aggregateRows_mem_keys (tbl : List Ingredient)
    (rows : List RecipeIngredient) :
    ∀ (acc : List (SLKey × ℚ)) (k' : SLKey),
      k' ∈ (aggregateRows tbl rows acc).map Prod.fst ↔
        k' ∈ acc.map Prod.fst ∨ k' ∈ rows.map (keyOf tbl) := by
  induction rows with
  | nil => intro acc k'; simp [aggregateRows]
  | cons ri rest ih =>
    intro acc k'
    rw [aggregateRows_cons, ih, addAmount_mem_keys]
    simp only [List.map_cons, List.mem_cons]
    tauto

theorem aggregateRows_nodup (tbl : List Ingredient)
    (rows : List RecipeIngredient) :
    ∀ acc : List (SLKey × ℚ),
      (acc.map Prod.fst).Nodup →
      ((aggregateRows tbl rows acc).map Prod.fst).Nodup := by
  induction rows with
  | nil => intro acc h; exact h
  | cons ri rest ih =>
    intro acc h
    rw [aggregateRows_cons]
    exact ih _ (addAmount_nodup _ _ _ h)

theorem shoppingAggregate_eq_rows (tbl : List Ingredient)
    (recipes : List Recipe) :
    shoppingAggregate tbl recipes = aggregateRows tbl (allRows recipes) [] := by
  suffices h : ∀ acc : List (SLKey × ℚ),
      recipes.foldl (fun acc r => aggregateRows tbl r.recipe_ingredients acc) acc =
        aggregateRows tbl (allRows recipes) acc from h []
  induction recipes with
  | nil => intro acc; rfl
  | cons r rest ih =>
    intro acc
    show rest.foldl _ (aggregateRows tbl r.recipe_ingredients acc) = _
    rw [ih]
    unfold aggregateRows allRows
    rw [List.flatMap_cons, List.foldl_append]

/-- C1: for every selection of recipes the aggregation returns exactly one
entry per distinct (name, unit) key occurring among the selected recipes'
`RecipeIngredient` rows (keys are nodup and a key is present iff some row
carries it), each entry's value being the exact decimal sum of the amounts of
all rows with that key — rows of distinct `Ingredient` records sharing
(name, unit) merge; and on the spec's example (R1: flour 200 g + sugar 50 g,
R2: flour 300 g from a second flour record + egg 2 pcs) the result is
{flour g: 500, sugar g: 50, egg pcs: 2}. -/
theorem C1_shopping_list_aggregation :
    (∀ (tbl : List Ingredient) (recipes : List Recipe),
      ((shoppingAggregate tbl recipes).map Prod.fst).Nodup ∧
      ∀ key : SLKey,
        (key ∈ (shoppingAggregate tbl recipes).map Prod.fst ↔
          key ∈ (allRows recipes).map (keyOf tbl)) ∧
        lookupAmount (shoppingAggregate tbl recipes) key =
          keySum tbl (allRows recipes) key) ∧
    shoppingAggregate exampleIngredients [exampleR1, exampleR2] =
      [(("flour", "g"), 500), (("sugar", "g"), 50), (("egg", "pcs"), 2)] := by
  constructor
  · intro tbl recipes
    refine ⟨?_, fun key => ⟨?_, ?_⟩⟩
    · rw [shoppingAggregate_eq_rows]
      exact aggregateRows_nodup tbl (allRows recipes) [] (by simp)
    · rw [shoppingAggregate_eq_rows, aggregateRows_mem_keys]
      simp
    · rw [shoppingAggregate_eq_rows, aggregateRows_lookup]
      simp [lookupAmount]
  · simp +decide [shoppingAggregate, aggregateRows, addAmount, keyOf,
      exampleIngredients, exampleR1, exampleR2, List.find?_cons]
    norm_num
